import Mathlib

/-!
Verification development for the aircraft service request application.

The application is a client-side request store: it holds a local list of
service requests, mutates it through a remote API (create, update-to-complete,
delete), decodes wire records into entities, and derives sorted and filtered
views.  The definitions below are a shallow embedding of the TypeScript
source (src/types.ts, src/api.ts, and the main application component); strings
are modelled as lists of characters, JavaScript Date values as explicit
calendar records, and asynchronous remote calls as explicit result parameters
threaded through the handlers.
-/

namespace ASR

/-- Status enum from src/types.ts (RequestStatus). -/
inductive RequestStatus
  | Pending
  | Completed
deriving DecidableEq

/-- Service type enum from src/types.ts (ServiceType). -/
inductive ServiceType
  | Connect
  | Disconnect
  | Replace
deriving DecidableEq

/-- Calendar date-time with millisecond precision, modelling the local-time
fields of a valid JavaScript Date value. -/
structure DateTime where
  year : Nat
  month : Nat
  day : Nat
  hour : Nat
  minute : Nat
  second : Nat
  ms : Nat
deriving DecidableEq

/-- JavaScript Date value: either a valid date-time or the Invalid Date that
the Date constructor yields on unparseable input. -/
inductive JSDate
  | valid (d : DateTime)
  | invalid
deriving DecidableEq

/-- Whitespace test used by the model of String.prototype.trim (ASCII subset
of the JavaScript whitespace class, which covers the characters a search box
can produce). -/
def isJsWs (c : Char) : Bool :=
  c = ' ' || c = '\t' || c = '\n' || c = '\r'

/-- Model of JavaScript String.prototype.trim on character lists. -/
def jsTrim (s : List Char) : List Char :=
  ((s.dropWhile isJsWs).reverse.dropWhile isJsWs).reverse

/-- Model of JavaScript String.prototype.toLowerCase, restricted to ASCII
letters (Char.toLower lowers exactly the ASCII uppercase range). -/
def jsToLower (s : List Char) : List Char :=
  s.map Char.toLower

/-- Model of JavaScript String.prototype.includes: does the needle occur as a
contiguous substring of the haystack? -/
def jsIncludes (hay needle : List Char) : Bool :=
  match hay with
  | [] => needle.isEmpty
  | c :: rest => needle.isPrefixOf (c :: rest) || jsIncludes rest needle

/-- Fuel-driven worker for decimal printing (structural recursion on the
fuel so that the kernel can evaluate it; any fuel above the digit count of n
gives the digits of n). -/
def natDecimalAux : Nat → Nat → List Char
  | 0, _ => []
  | fuel + 1, n =>
      if n < 10 then [Nat.digitChar n]
      else natDecimalAux fuel (n / 10) ++ [Nat.digitChar (n % 10)]

/-- Decimal digit list of a natural number, most significant first; models
JavaScript number-to-string conversion for the non-negative integers produced
by Date.now(). -/
def natDecimal (n : Nat) : List Char :=
  natDecimalAux (n + 1) n

/-- Numeric value of a digit list (base 10, most significant first). -/
def digitsVal (s : List Char) : Nat :=
  s.foldl (fun acc c => acc * 10 + (c.toNat - 48)) 0

/-- Model of the JavaScript Number() conversion as applied to the pieces of a
time-of-day string: surrounding whitespace is ignored, the empty string
converts to 0, a digit string converts to its decimal value, and anything
else is NaN (modelled as none).  Signs, fractions and exotic formats do not
occur in time-of-day input and are modelled as NaN. -/
def jsNumber (s : List Char) : Option Nat :=
  let t := jsTrim s
  if t.isEmpty then some 0
  else if t.all Char.isDigit then some (digitsVal t) else none

/-- Leap year test of the Gregorian calendar. -/
def isLeapYear (y : Nat) : Bool :=
  (y % 4 == 0 && y % 100 != 0) || y % 400 == 0

/-- Length in days of a month (1 to 12) of a (leap or common) year. -/
def monthLength (leap : Bool) (m : Nat) : Nat :=
  match m with
  | 1 => 31
  | 2 => if leap then 29 else 28
  | 3 => 31
  | 4 => 30
  | 5 => 31
  | 6 => 30
  | 7 => 31
  | 8 => 31
  | 9 => 30
  | 10 => 31
  | 11 => 30
  | 12 => 31
  | _ => 0

/-- Days in year y that precede the first day of month m. -/
def daysBeforeMonth (y m : Nat) : Nat :=
  (List.range (m - 1)).foldl (fun acc i => acc + monthLength (isLeapYear y) (i + 1)) 0

/-- Days that precede the first day of year y, counted from 0001-01-01. -/
def daysBeforeYear (y : Nat) : Nat :=
  (y - 1) * 365 + (y - 1) / 4 + (y - 1) / 400 - (y - 1) / 100

/-- Millisecond timestamp of a date-time, measured from 0001-01-01T00:00:00.
Models Date.prototype.getTime up to a constant offset (the epoch shift to
1970 cancels in every difference the sort comparator computes). -/
def getTime (d : DateTime) : Nat :=
  (daysBeforeYear d.year + daysBeforeMonth d.year d.month + (d.day - 1)) * 86400000
    + d.hour * 3600000 + d.minute * 60000 + d.second * 1000 + d.ms

/-- Decimal digit list of n, left-padded with zeros to width w. -/
def padDigits (w n : Nat) : List Char :=
  List.replicate (w - (natDecimal n).length) '0' ++ natDecimal n

/-- Model of Date.prototype.toLocaleDateString with the en-CA locale, which
formats the local calendar date as YYYY-MM-DD. -/
def toLocaleDateStringEnCA (d : DateTime) : List Char :=
  padDigits 4 d.year ++ [ '-' ] ++ padDigits 2 d.month ++ [ '-' ] ++ padDigits 2 d.day

/-- Read exactly k decimal digits from the front of s, extending the
accumulator acc; fails if a non-digit or the end of input appears first. -/
def readDigits : Nat → List Char → Nat → Option (Nat × List Char)
  | 0, s, acc => some (acc, s)
  | k + 1, c :: rest, acc =>
      if c.isDigit then readDigits k rest (acc * 10 + (c.toNat - 48)) else none
  | _ + 1, [], _ => none

/-- Consume one expected character from the front of the input. -/
def expectChar (c : Char) : List Char → Option (List Char)
  | d :: rest => if d = c then some rest else none
  | [] => none

/-- Parser for ISO date-time strings of the shape YYYY-MM-DDTHH:MM:SS with
field range checks; models the subset of inputs the JavaScript Date
constructor accepts that the wire contract transmits.  Unparseable input
yields none (Invalid Date). -/
def parseISODateTime (s : List Char) : Option DateTime := do
  let (y, s) ← readDigits 4 s 0
  let s ← expectChar '-' s
  let (mo, s) ← readDigits 2 s 0
  let s ← expectChar '-' s
  let (d, s) ← readDigits 2 s 0
  let s ← expectChar 'T' s
  let (h, s) ← readDigits 2 s 0
  let s ← expectChar ':' s
  let (mi, s) ← readDigits 2 s 0
  let s ← expectChar ':' s
  let (sec, s) ← readDigits 2 s 0
  if s = [] ∧ 1 ≤ mo ∧ mo ≤ 12 ∧ 1 ≤ d ∧ d ≤ monthLength (isLeapYear y) mo
      ∧ h ≤ 23 ∧ mi ≤ 59 ∧ sec ≤ 59 then
    some ⟨y, mo, d, h, mi, sec, 0⟩
  else none

/-- Model of the JavaScript Date constructor applied to a wire string: a
parseable date-time string yields a valid Date, anything else yields
Invalid Date. -/
def jsNewDate (s : List Char) : JSDate :=
  match parseISODateTime s with
  | some d => JSDate.valid d
  | none => JSDate.invalid

/-- Wire record shape of the remote contract (snake_case field names, ISO
date strings; completion_time and the delivery staff fields are nullable).
The status and service type enums travel as their literal string values and
are modelled by the enum types directly since the code passes them through
without inspection. -/
structure WireRecord where
  id : List Char
  staff_name : List Char
  staff_number : List Char
  aircraft_bay : List Char
  flight_number : List Char
  request_time : List Char
  completion_time : Option (List Char)
  status : RequestStatus
  service_type : ServiceType
  aircraft_eta : List Char
  delivery_staff_name : Option (List Char)
  delivery_staff_number : Option (List Char)
deriving DecidableEq

/-- Decoded entity shape produced by the transcoder in src/api.ts: camelCase
fields, Date values (possibly Invalid Date) for the timestamps. -/
structure ServiceRequestJS where
  id : List Char
  staffName : List Char
  staffNumber : List Char
  aircraftBay : List Char
  flightNumber : List Char
  requestTime : JSDate
  completionTime : Option JSDate
  status : RequestStatus
  serviceType : ServiceType
  aircraftEta : List Char
  deliveryStaffName : Option (List Char)
  deliveryStaffNumber : Option (List Char)
deriving DecidableEq

/-- Embedding of transformRequest from src/api.ts: renames snake_case wire
fields to camelCase, converts request_time with the Date constructor, and
converts completion_time only when it is present and truthy (null, absence
and the empty string are all falsy in JavaScript and yield undefined). -/
def transformRequest (request : WireRecord) : ServiceRequestJS :=
  { id := request.id
    staffName := request.staff_name
    staffNumber := request.staff_number
    aircraftBay := request.aircraft_bay
    flightNumber := request.flight_number
    requestTime := jsNewDate request.request_time
    completionTime :=
      match request.completion_time with
      | none => none
      | some s => if s = [] then none else some (jsNewDate s)
    status := request.status
    serviceType := request.service_type
    aircraftEta := request.aircraft_eta
    deliveryStaffName := request.delivery_staff_name
    deliveryStaffNumber := request.delivery_staff_number }

/-- Modelled from the spec: the decode operation as section 4.2 of the spec
describes it, for comparison with the implemented transformRequest.  It
renames fields, parses request_time and FAILS (returns none) when
request_time is unparseable, and keeps an absent or null completion_time
absent while parsing a present value. -/
def decodeSpec (request : WireRecord) : Option ServiceRequestJS :=
  match parseISODateTime request.request_time with
  | none => none
  | some rt =>
      some
        { id := request.id
          staffName := request.staff_name
          staffNumber := request.staff_number
          aircraftBay := request.aircraft_bay
          flightNumber := request.flight_number
          requestTime := JSDate.valid rt
          completionTime :=
            match request.completion_time with
            | none => none
            | some s => some (jsNewDate s)
          status := request.status
          serviceType := request.service_type
          aircraftEta := request.aircraft_eta
          deliveryStaffName := request.delivery_staff_name
          deliveryStaffNumber := request.delivery_staff_number }

/-- In-memory service request entity from src/types.ts, as held by the
request store.  The store only ever holds server-confirmed records whose
requestTime parsed, so requestTime is a valid date-time here; completionTime
keeps the full Date range because it is an optional Date produced by decode,
and the Date constructor can in principle yield Invalid Date from an
unparseable wire string. -/
structure ServiceRequest where
  id : List Char
  staffName : List Char
  staffNumber : List Char
  aircraftBay : List Char
  flightNumber : List Char
  requestTime : DateTime
  completionTime : Option JSDate
  status : RequestStatus
  serviceType : ServiceType
  aircraftEta : List Char
  deliveryStaffName : Option (List Char)
  deliveryStaffNumber : Option (List Char)
deriving DecidableEq

/-- Notification type from src/types.ts (success, error or info). -/
inductive NotifType
  | success
  | error
  | info
deriving DecidableEq

/-- NotificationMessage from src/types.ts. -/
structure NotificationMessage where
  id : List Char
  message : List Char
  type : NotifType
deriving DecidableEq

/-- Identifier generated by addNotification: the template literal
notif-${Date.now()}, with the current millisecond timestamp passed in
explicitly. -/
def notifId (now : Nat) : List Char :=
  ("notif-").data ++ natDecimal now

/-- Mutable state owned by the MainApplication component: the request list,
the notification queue, and the three pending-confirmation slots (the id
currently awaiting completion confirmation, deletion confirmation, or
delivery-completion details; none means the flow is idle). -/
structure AppState where
  requests : List ServiceRequest
  notifications : List NotificationMessage
  confirmingComplete : Option (List Char)
  confirmingDelete : Option (List Char)
  completingDelivery : Option (List Char)
deriving DecidableEq

/-- Embedding of addNotification: appends one message with a time-derived id
to the notification queue. -/
def addNotification (now : Nat) (message : List Char) (type : NotifType)
    (st : AppState) : AppState :=
  { st with notifications := st.notifications ++ [⟨notifId now, message, type⟩] }

/-- Embedding of removeNotification: removes the messages with the given id. -/
def removeNotification (id : List Char) (st : AppState) : AppState :=
  { st with notifications := st.notifications.filter (fun n => n.id ≠ id) }

/-- Embedding of addRequest: the resolved outcome of api.createRequest is
passed in as an Except value (ok carries the decoded server-returned entity).
On success the new entity is prepended to the list and a success notification
is added; on failure only an error notification is added. -/
def addRequest (result : Except Unit ServiceRequest) (now : Nat)
    (st : AppState) : AppState :=
  match result with
  | Except.ok newRequest =>
      addNotification now ("Service request created successfully.").data NotifType.success
        { st with requests := newRequest :: st.requests }
  | Except.error _ =>
      addNotification now ("Failed to create service request.").data NotifType.error st

/-- Partial update payload as the JavaScript object the handlers build and
hand to api.updateRequest; none means the field is not on the object.  The
body sent over the wire is JSON.stringify of this object (src/api.ts), which
stringifyUpdates embeds. -/
structure UpdateFields where
  status : Option RequestStatus := none
  completionTime : Option JSDate := none
  deliveryStaffName : Option (List Char) := none
  deliveryStaffNumber : Option (List Char) := none
deriving DecidableEq

/-- Update payload dispatched by handleConfirmComplete: status Completed
together with completionTime set to the current instant. -/
def completeUpdates (now : DateTime) : UpdateFields :=
  { status := some RequestStatus.Completed
    completionTime := some (JSDate.valid now) }

/-- Serialized update body as it crosses the wire: completion_time is absent
(field omitted), null, or a parseable date string carrying its date-time. -/
structure WireUpdate where
  status : Option RequestStatus := none
  completion_time : Option (Option DateTime) := none
  delivery_staff_name : Option (List Char) := none
  delivery_staff_number : Option (List Char) := none
deriving DecidableEq

/-- Embedding of JSON.stringify(updates) in updateRequest (src/api.ts): an
absent field is omitted from the body; a valid Date serializes to its ISO
string, which carries exactly its date-time; an Invalid Date serializes to
null, because Date.prototype.toJSON returns null for a date whose time
value is not finite. -/
def stringifyUpdates (u : UpdateFields) : WireUpdate :=
  { status := u.status
    completion_time :=
      match u.completionTime with
      | none => none
      | some (JSDate.valid d) => some (some d)
      | some JSDate.invalid => some none
    delivery_staff_name := u.deliveryStaffName
    delivery_staff_number := u.deliveryStaffNumber }

/-- Modelled from the spec: the remote PATCH endpoint is not part of the
client source; per sections 4.3 and 6 of the spec it applies the serialized
partial fields to the stored entity and returns the full updated wire
record, which the client decodes with the transformRequest semantics before
swapping it in by id.  In particular an echoed null completion_time decodes
to an unset completionTime (null is falsy), and an echoed date string
decodes to its valid timestamp.  applyWireUpdates is that round-trip echo
semantics. -/
def applyWireUpdates (r : ServiceRequest) (u : WireUpdate) : ServiceRequest :=
  { r with
    status := u.status.getD r.status
    completionTime := match u.completion_time with
      | none => r.completionTime
      | some none => none
      | some (some d) => some (JSDate.valid d)
    deliveryStaffName := match u.delivery_staff_name with
      | none => r.deliveryStaffName
      | some s => some s
    deliveryStaffNumber := match u.delivery_staff_number with
      | none => r.deliveryStaffNumber
      | some s => some s }

/-- Embedding of handleConfirmComplete: guarded on a pending confirmation id;
the resolved outcome of api.updateRequest is passed in as an Except value.
On success the returned entity replaces the entry with the matching id, the
confirmation slot is cleared and an info notification is added; on failure
(the thrown error is caught) only an error notification is added and the
confirmation slot is left as it was. -/
def handleConfirmComplete (remote : Except Unit ServiceRequest) (now : Nat)
    (st : AppState) : AppState :=
  match st.confirmingComplete with
  | none => st
  | some target =>
      match remote with
      | Except.error _ =>
          addNotification now ("Failed to mark request as complete.").data NotifType.error st
      | Except.ok updatedRequest =>
          addNotification now ("Request marked as complete.").data NotifType.info
            { st with
              requests := st.requests.map
                (fun req => if req.id = target then updatedRequest else req)
              confirmingComplete := none }

/-- Embedding of handleCancelComplete. -/
def handleCancelComplete (st : AppState) : AppState :=
  { st with confirmingComplete := none }

/-- Time-of-day parse used by handleConfirmCompleteDelivery: the destructuring
[hours, minutes] = str.split(horizontal colon).map(Number); the result is none
when either of the first two pieces is NaN or missing (the code then builds an
Invalid Date). -/
def parseHM (s : List Char) : Option (Nat × Nat) :=
  match (s.splitOn ':').map jsNumber with
  | some h :: some m :: _ => some (h, m)
  | _ => none

/-- Model of Date.prototype.setHours(h, m, 0, 0) on a valid date: overwrite
the hour and minute and zero the seconds and milliseconds.  Arguments are in
the ranges a HH:MM time input produces (0-23 and 0-59); out-of-range rollover
is not modelled. -/
def jsSetHours (d : DateTime) (h m : Nat) : DateTime :=
  { d with hour := h, minute := m, second := 0, ms := 0 }

/-- Completion timestamp computed by handleConfirmCompleteDelivery from the
target entity and the time-of-day string: a copy of requestTime with hour and
minute overwritten and seconds and milliseconds zeroed, or Invalid Date when
the time string does not parse. -/
def deliveryCompletionDate (r : ServiceRequest) (completionTimeStr : List Char) : JSDate :=
  match parseHM completionTimeStr with
  | some (h, m) => JSDate.valid (jsSetHours r.requestTime h m)
  | none => JSDate.invalid

/-- Update payload dispatched by handleConfirmCompleteDelivery. -/
def deliveryUpdates (completionDate : JSDate) (deliveryStaffName deliveryStaffNumber : List Char) :
    UpdateFields :=
  { status := some RequestStatus.Completed
    completionTime := some completionDate
    deliveryStaffName := some deliveryStaffName
    deliveryStaffNumber := some deliveryStaffNumber }

/-- Embedding of handleConfirmCompleteDelivery: guarded on a pending
delivery-completion id; looks the target up in the local list (a missing
target throws, which the catch turns into an error notification); computes
the completion date from the target requestTime and the time-of-day input;
dispatches the delivery update payload through api.updateRequest, whose
resolved outcome is given by the remote function.  On success the returned
entity replaces the entry with the matching id, the delivery slot is cleared
and a success notification is added; on failure only an error notification
is added. -/
def handleConfirmCompleteDelivery (remote : UpdateFields → Except Unit ServiceRequest)
    (deliveryStaffName deliveryStaffNumber completionTimeStr : List Char)
    (now : Nat) (st : AppState) : AppState :=
  match st.completingDelivery with
  | none => st
  | some target =>
      match st.requests.find? (fun r => r.id = target) with
      | none => addNotification now ("Failed to complete task.").data NotifType.error st
      | some reqToUpdate =>
          let completionDate := deliveryCompletionDate reqToUpdate completionTimeStr
          let updates := deliveryUpdates completionDate deliveryStaffName deliveryStaffNumber
          match remote updates with
          | Except.error _ =>
              addNotification now ("Failed to complete task.").data NotifType.error st
          | Except.ok updatedRequest =>
              addNotification now ("Task completed successfully.").data NotifType.success
                { st with
                  requests := st.requests.map
                    (fun req => if req.id = target then updatedRequest else req)
                  completingDelivery := none }

/-- Embedding of handleConfirmDelete: guarded on a pending deletion id; the
resolved outcome of api.deleteRequest is passed in as an Except value.  On
success the entries with the target id are filtered out, the confirmation
slot is cleared and an info notification is added; on failure only an error
notification is added and the confirmation slot is left as it was. -/
def handleConfirmDelete (remote : Except Unit Unit) (now : Nat)
    (st : AppState) : AppState :=
  match st.confirmingDelete with
  | none => st
  | some target =>
      match remote with
      | Except.error _ =>
          addNotification now ("Failed to delete request.").data NotifType.error st
      | Except.ok _ =>
          addNotification now ("Request has been deleted.").data NotifType.info
            { st with
              requests := st.requests.filter (fun req => req.id ≠ target)
              confirmingDelete := none }

/-- Embedding of handleCancelDelete. -/
def handleCancelDelete (st : AppState) : AppState :=
  { st with confirmingDelete := none }

/-- Comparator passed to Array.prototype.sort by the sortedRequests memo:
pending before completed, and within equal status newest requestTime first
(the comparator subtracts millisecond timestamps). -/
def compareRequests (a b : ServiceRequest) : Int :=
  if a.status = RequestStatus.Pending ∧ b.status = RequestStatus.Completed then -1
  else if a.status = RequestStatus.Completed ∧ b.status = RequestStatus.Pending then 1
  else (getTime b.requestTime : Int) - (getTime a.requestTime : Int)

/-- Boolean order induced by the comparator (comparator result at most 0). -/
def requestLE (a b : ServiceRequest) : Bool :=
  compareRequests a b ≤ 0

/-- Propositional form of the comparator order, used to drive the sort. -/
def requestR (a b : ServiceRequest) : Prop :=
  requestLE a b = true

instance : DecidableRel requestR :=
  fun a b => inferInstanceAs (Decidable (requestLE a b = true))

/-- Embedding of the sortedRequests memo: a stable sort of a copy of the
request list by the comparator.  ECMAScript Array.prototype.sort is stable
and, for a consistent comparator, yields a list pairwise ordered by
comparator at most 0; a stable sort with that post-condition produces one
unique output, so the insertion sort below computes exactly what the source
computes. -/
def sortedRequests (requests : List ServiceRequest) : List ServiceRequest :=
  List.insertionSort requestR requests

/-- Embedding of the pendingCount memo. -/
def pendingCount (requests : List ServiceRequest) : Nat :=
  (requests.filter (fun req => req.status = RequestStatus.Pending)).length

/-- Status filter state: the literal ALL or an exact status. -/
inductive StatusFilter
  | ALL
  | only (s : RequestStatus)
deriving DecidableEq

/-- Service type filter state: the literal ALL or an exact service type. -/
inductive TypeFilter
  | ALL
  | only (t : ServiceType)
deriving DecidableEq

/-- Filter inputs of the requester view: status, service type, calendar date
(empty string means unset) and the search term. -/
structure Filters where
  statusFilter : StatusFilter
  serviceTypeFilter : TypeFilter
  dateFilter : List Char
  searchTerm : List Char
deriving DecidableEq

/-- First filter clause: statusFilter is ALL or the status matches exactly. -/
def statusPass (f : StatusFilter) (req : ServiceRequest) : Bool :=
  match f with
  | StatusFilter.ALL => true
  | StatusFilter.only s => req.status = s

/-- Second filter clause: serviceTypeFilter is ALL or the type matches. -/
def typePass (f : TypeFilter) (req : ServiceRequest) : Bool :=
  match f with
  | TypeFilter.ALL => true
  | TypeFilter.only t => req.serviceType = t

/-- Third filter clause: an empty date filter passes everything, otherwise
the en-CA rendering (YYYY-MM-DD) of the local requestTime date must equal
the filter string. -/
def datePass (dateFilter : List Char) (req : ServiceRequest) : Bool :=
  if dateFilter.isEmpty then true
  else toLocaleDateStringEnCA req.requestTime = dateFilter

/-- Fourth filter clause: a search term that trims to nothing passes
everything, otherwise the lowercased term must occur in the lowercased
flight number, aircraft bay or requester staff name. -/
def searchPass (searchTerm : List Char) (req : ServiceRequest) : Bool :=
  if (jsTrim searchTerm).isEmpty then true
  else
    let lowercasedSearchTerm := jsToLower searchTerm
    jsIncludes (jsToLower req.flightNumber) lowercasedSearchTerm
      || jsIncludes (jsToLower req.aircraftBay) lowercasedSearchTerm
      || jsIncludes (jsToLower req.staffName) lowercasedSearchTerm

/-- Embedding of the filteredRequests memo (requester view): the four filter
clauses applied in sequence over the sorted list. -/
def filteredRequests (f : Filters) (requests : List ServiceRequest) : List ServiceRequest :=
  ((((sortedRequests requests).filter (statusPass f.statusFilter)).filter
      (typePass f.serviceTypeFilter)).filter
    (datePass f.dateFilter)).filter
    (searchPass f.searchTerm)

/-- Embedding of the filteredDeliveryRequests memo (delivery view): only the
status filter is applied over the sorted list. -/
def filteredDeliveryRequests (f : Filters) (requests : List ServiceRequest) :
    List ServiceRequest :=
  (sortedRequests requests).filter (statusPass f.statusFilter)

/-- Primary sort key of the two-key sort: Pending ranks 0, Completed ranks 1. -/
def statusRank : RequestStatus → Nat
  | RequestStatus.Pending => 0
  | RequestStatus.Completed => 1

lemma requestLE_iff (a b : ServiceRequest) :
    requestLE a b = true ↔
      statusRank a.status < statusRank b.status
        ∨ (a.status = b.status ∧ getTime b.requestTime ≤ getTime a.requestTime) := by
  unfold requestLE compareRequests
  cases ha : a.status <;> cases hb : b.status <;>
    simp [ha, hb, statusRank]

lemma requestLE_total (a b : ServiceRequest) :
    (requestLE a b || requestLE b a) = true := by
  rcases Bool.eq_false_or_eq_true (requestLE a b) with h | h
  · rw [h, Bool.true_or]
  · rw [h, Bool.false_or, requestLE_iff]
    rw [Bool.eq_false_iff, Ne, requestLE_iff] at h
    push_neg at h
    obtain ⟨h1, h2⟩ := h
    by_cases hs : a.status = b.status
    · exact Or.inr ⟨hs.symm, by have := h2 hs; omega⟩
    · refine Or.inl ?_
      have : statusRank b.status ≠ statusRank a.status := by
        cases hsa : a.status <;> cases hsb : b.status <;>
          simp_all [statusRank]
      omega

lemma requestLE_trans (a b c : ServiceRequest) :
    requestLE a b = true → requestLE b c = true → requestLE a c = true := by
  rw [requestLE_iff, requestLE_iff, requestLE_iff]
  rintro (hab | ⟨hab, tab⟩) (hbc | ⟨hbc, tbc⟩)
  · exact Or.inl (by omega)
  · have : statusRank b.status = statusRank c.status := by rw [hbc]
    exact Or.inl (by omega)
  · have : statusRank a.status = statusRank b.status := by rw [hab]
    exact Or.inl (by omega)
  · exact Or.inr ⟨hab.trans hbc, by omega⟩

lemma sortedRequests_pairwise (rs : List ServiceRequest) :
    List.Pairwise requestR (sortedRequests rs) := by
  haveI : IsTotal ServiceRequest requestR :=
    ⟨fun a b => by
      have h := requestLE_total a b
      rcases Bool.or_eq_true_iff.mp h with h | h
      · exact Or.inl h
      · exact Or.inr h⟩
  haveI : IsTrans ServiceRequest requestR :=
    ⟨fun a b c => requestLE_trans a b c⟩
  exact List.sorted_insertionSort requestR rs

lemma sortedRequests_perm (rs : List ServiceRequest) :
    (sortedRequests rs).Perm rs :=
  List.perm_insertionSort requestR rs

lemma mem_sortedRequests {r : ServiceRequest} {rs : List ServiceRequest} :
    r ∈ sortedRequests rs ↔ r ∈ rs :=
  (sortedRequests_perm rs).mem_iff

lemma digitsVal_append (xs : List Char) (c : Char) :
    digitsVal (xs ++ [c]) = digitsVal xs * 10 + (c.toNat - 48) := by
  simp [digitsVal, List.foldl_append]

lemma digitChar_toNat {n : Nat} (h : n < 10) : (Nat.digitChar n).toNat - 48 = n := by
  revert h
  revert n
  decide

lemma digitsVal_natDecimalAux :
    ∀ fuel n, n < fuel → digitsVal (natDecimalAux fuel n) = n := by
  intro fuel
  induction fuel with
  | zero => intro n h; omega
  | succ fuel ih =>
    intro n h
    rw [natDecimalAux]
    split
    · next h10 =>
      simpa [digitsVal] using digitChar_toNat h10
    · next h10 =>
      have hdiv : n / 10 < fuel :=
        Nat.lt_of_lt_of_le (Nat.div_lt_self (by omega) (by omega)) (by omega)
      rw [digitsVal_append, ih (n / 10) hdiv,
        digitChar_toNat (Nat.mod_lt _ (by omega))]
      omega

lemma digitsVal_natDecimal (n : Nat) : digitsVal (natDecimal n) = n :=
  digitsVal_natDecimalAux (n + 1) n (Nat.lt_succ_self n)

lemma natDecimal_injective {m n : Nat} (h : natDecimal m = natDecimal n) : m = n := by
  have := congrArg digitsVal h
  rwa [digitsVal_natDecimal, digitsVal_natDecimal] at this

lemma jsTrim_eq_nil_of_ws {s : List Char} (h : ∀ c ∈ s, isJsWs c = true) :
    jsTrim s = [] := by
  unfold jsTrim
  rw [List.dropWhile_eq_nil_iff.mpr h]
  simp

/-- Sample timestamps: t1 is the newest instant, carried by the completed
entity; t2 and t3 are older, with t3 later than t2. -/
def t1Date : DateTime := ⟨2024, 3, 6, 9, 0, 0, 0⟩

/-- Sample timestamp t2 (2024-03-05T08:00:00, the spec example request time). -/
def t2Date : DateTime := ⟨2024, 3, 5, 8, 0, 0, 0⟩

/-- Sample timestamp t3, later than t2 on the same day. -/
def t3Date : DateTime := ⟨2024, 3, 5, 14, 0, 0, 0⟩

/-- Sample completed entity at t1. -/
def reqCompleted1 : ServiceRequest :=
  ⟨("r1").data, ("Alice").data, ("1001").data, ("B07").data, ("CX100").data,
    t1Date, some (JSDate.valid t1Date), RequestStatus.Completed,
    ServiceType.Disconnect, ("09:00").data, none, none⟩

/-- Sample pending entity at t2 (bay B12, type Connect). -/
def reqPending2 : ServiceRequest :=
  ⟨("r2").data, ("Bob").data, ("1002").data, ("B12").data, ("CX200").data,
    t2Date, none, RequestStatus.Pending, ServiceType.Connect,
    ("10:00").data, none, none⟩

/-- Sample pending entity at t3. -/
def reqPending3 : ServiceRequest :=
  ⟨("r3").data, ("Carol").data, ("1003").data, ("B09").data, ("CX300").data,
    t3Date, none, RequestStatus.Pending, ServiceType.Replace,
    ("15:00").data, none, none⟩

lemma perm_two {α : Type _} [DecidableEq α] {a b : α} {l : List α} (hab : a ≠ b)
    (h : l.Perm [a, b]) : l = [a, b] ∨ l = [b, a] := by
  rcases l with _ | ⟨x, _ | ⟨y, _ | ⟨z, t⟩⟩⟩
  · exact absurd h.length_eq (by simp)
  · exact absurd h.length_eq (by simp)
  · have hx : x ∈ [a, b] := h.mem_iff.mp (by simp)
    simp only [List.mem_cons, List.mem_singleton, List.not_mem_nil, or_false] at hx
    rcases hx with rfl | rfl
    · have hy : [y].Perm [b] := h.cons_inv
      have : y = b := by simpa using List.perm_singleton.mp hy
      exact Or.inl (by rw [this])
    · have h2 := (List.cons_perm_iff_perm_erase.mp h).2
      have herase : [a, x].erase x = [a] := by
        simp [List.erase_cons, hab]
      rw [herase] at h2
      have : y = a := by simpa using List.perm_singleton.mp h2
      exact Or.inr (by rw [this])
  · exact absurd h.length_eq (by simp)

lemma perm_three {α : Type _} [DecidableEq α] {a b c : α} {l : List α}
    (hab : a ≠ b) (hac : a ≠ c) (hbc : b ≠ c) (h : l.Perm [a, b, c]) :
    l = [a, b, c] ∨ l = [a, c, b] ∨ l = [b, a, c] ∨ l = [b, c, a]
      ∨ l = [c, a, b] ∨ l = [c, b, a] := by
  rcases l with _ | ⟨x, _ | ⟨y, _ | ⟨z, _ | ⟨w, t⟩⟩⟩⟩
  · exact absurd h.length_eq (by simp)
  · exact absurd h.length_eq (by simp)
  · exact absurd h.length_eq (by simp)
  · have hx : x ∈ [a, b, c] := h.mem_iff.mp (by simp)
    simp only [List.mem_cons, List.mem_singleton, List.not_mem_nil, or_false] at hx
    rcases hx with rfl | rfl | rfl
    · have h2 : [y, z].Perm [b, c] := h.cons_inv
      rcases perm_two hbc h2 with h3 | h3 <;> rw [h3]
      · exact Or.inl rfl
      · exact Or.inr (Or.inl rfl)
    · have h2 := (List.cons_perm_iff_perm_erase.mp h).2
      have herase : [a, x, c].erase x = [a, c] := by
        simp [List.erase_cons, hab]
      rw [herase] at h2
      rcases perm_two hac h2 with h3 | h3 <;> rw [h3]
      · exact Or.inr (Or.inr (Or.inl rfl))
      · exact Or.inr (Or.inr (Or.inr (Or.inl rfl)))
    · have h2 := (List.cons_perm_iff_perm_erase.mp h).2
      have herase : [a, b, x].erase x = [a, b] := by
        simp [List.erase_cons, hac, hbc]
      rw [herase] at h2
      rcases perm_two hab h2 with h3 | h3 <;> rw [h3]
      · exact Or.inr (Or.inr (Or.inr (Or.inr (Or.inl rfl))))
      · exact Or.inr (Or.inr (Or.inr (Or.inr (Or.inr rfl))))
  · exact absurd h.length_eq (by simp)

/-- C3: for every input list the projected sort is a permutation of the input
in which no completed entity precedes a pending one and entities of equal
status appear with newer requestTime (larger millisecond timestamp) first;
on the sample entities (Completed at t1, Pending at t2, Pending at t3 with
t2 earlier than t3) every input order projects to
[Pending at t3, Pending at t2, Completed at t1]. -/
theorem sorted_requests_spec :
    (∀ rs : List ServiceRequest,
        (sortedRequests rs).Perm rs
          ∧ List.Pairwise
              (fun a b =>
                ¬(a.status = RequestStatus.Completed ∧ b.status = RequestStatus.Pending)
                  ∧ (a.status = b.status → getTime b.requestTime ≤ getTime a.requestTime))
              (sortedRequests rs))
      ∧ getTime t2Date < getTime t3Date
      ∧ ∀ l : List ServiceRequest,
          l.Perm [reqCompleted1, reqPending2, reqPending3] →
            sortedRequests l = [reqPending3, reqPending2, reqCompleted1] := by
  refine ⟨fun rs => ⟨sortedRequests_perm rs, ?_⟩, by decide, ?_⟩
  · refine (sortedRequests_pairwise rs).imp ?_
    intro a b hle
    rw [requestR, requestLE_iff] at hle
    constructor
    · rintro ⟨ha, hb⟩
      rcases hle with h | ⟨h, _⟩
      · rw [ha, hb] at h
        simp [statusRank] at h
      · rw [ha, hb] at h
        cases h
    · intro hs
      rcases hle with h | ⟨_, ht⟩
      · rw [hs] at h
        omega
      · exact ht
  · intro l hl
    have hab : reqCompleted1 ≠ reqPending2 := by decide
    have hac : reqCompleted1 ≠ reqPending3 := by decide
    have hbc : reqPending2 ≠ reqPending3 := by decide
    rcases perm_three hab hac hbc hl with h | h | h | h | h | h <;> rw [h] <;> decide

/-- C3 witness: a shuffled input order of the three sample entities is a
permutation of the sample list and projects to the stated order. -/
theorem sorted_requests_spec_witness :
    ([reqPending2, reqCompleted1, reqPending3] : List ServiceRequest).Perm
        [reqCompleted1, reqPending2, reqPending3]
      ∧ sortedRequests [reqPending2, reqCompleted1, reqPending3]
          = [reqPending3, reqPending2, reqCompleted1] :=
  ⟨by decide, sorted_requests_spec.2.2 [reqPending2, reqCompleted1, reqPending3] (by decide)⟩

/-- C5: successful create prepends the decoded server entity to the local
list (existing entries shifted, unmodified) and enqueues one success
notification; failed create leaves the list exactly unchanged and enqueues
exactly one error notification. -/
theorem add_request_spec :
    ∀ (st : AppState) (r : ServiceRequest) (now : Nat) (e : Unit),
      (addRequest (Except.ok r) now st).requests = r :: st.requests
        ∧ (addRequest (Except.ok r) now st).notifications
            = st.notifications
                ++ [⟨notifId now, ("Service request created successfully.").data,
                      NotifType.success⟩]
        ∧ (addRequest (Except.error e) now st).requests = st.requests
        ∧ (addRequest (Except.error e) now st).notifications
            = st.notifications
                ++ [⟨notifId now, ("Failed to create service request.").data,
                      NotifType.error⟩] :=
  fun _ _ _ _ => ⟨rfl, rfl, rfl, rfl⟩

/-- C4: the requester view keeps an entity exactly when the entity is in the
store list and passes the status clause, the service type clause, the date
clause and the search clause, conjunctively; and occurrence of the search
term in the flight number, aircraft bay or staff name (case-insensitively)
suffices for the search clause to pass. -/
theorem filtered_requests_spec :
    ∀ (f : Filters) (rs : List ServiceRequest) (req : ServiceRequest),
      (req ∈ filteredRequests f rs
          ↔ req ∈ rs
              ∧ statusPass f.statusFilter req = true
              ∧ typePass f.serviceTypeFilter req = true
              ∧ datePass f.dateFilter req = true
              ∧ searchPass f.searchTerm req = true)
        ∧ ((jsIncludes (jsToLower req.flightNumber) (jsToLower f.searchTerm) = true
              ∨ jsIncludes (jsToLower req.aircraftBay) (jsToLower f.searchTerm) = true
              ∨ jsIncludes (jsToLower req.staffName) (jsToLower f.searchTerm) = true)
            → searchPass f.searchTerm req = true) := by
  intro f rs req
  constructor
  · unfold filteredRequests
    simp only [List.mem_filter, mem_sortedRequests]
    tauto
  · intro h
    unfold searchPass
    split
    · rfl
    · simp only [Bool.or_eq_true]
      tauto

/-- C4 witness: with status ALL, type Connect and search term B12, the
pending Connect entity whose bay is B12 passes the search clause and is kept
by the view. -/
theorem filtered_requests_spec_witness :
    searchPass (("B12").data) reqPending2 = true
      ∧ reqPending2
          ∈ filteredRequests
              ⟨StatusFilter.ALL, TypeFilter.only ServiceType.Connect, [], ("B12").data⟩
              [reqCompleted1, reqPending2, reqPending3] := by
  constructor
  · exact (filtered_requests_spec
      ⟨StatusFilter.ALL, TypeFilter.only ServiceType.Connect, [], ("B12").data⟩
      [reqCompleted1, reqPending2, reqPending3] reqPending2).2
      (Or.inr (Or.inl (by decide)))
  · exact ((filtered_requests_spec
      ⟨StatusFilter.ALL, TypeFilter.only ServiceType.Connect, [], ("B12").data⟩
      [reqCompleted1, reqPending2, reqPending3] reqPending2).1).mpr
      ⟨by decide, by decide, by decide, by decide, by decide⟩

/-- C10: when every character of the search term is whitespace (including
the empty term), the search clause passes every entity and the view equals
the result of the status, type and date filters alone. -/
theorem whitespace_search_spec :
    ∀ (f : Filters) (rs : List ServiceRequest),
      (∀ c ∈ f.searchTerm, isJsWs c = true) →
        (∀ req, searchPass f.searchTerm req = true)
          ∧ filteredRequests f rs
              = (((sortedRequests rs).filter (statusPass f.statusFilter)).filter
                  (typePass f.serviceTypeFilter)).filter (datePass f.dateFilter) := by
  intro f rs h
  have hpass : ∀ req, searchPass f.searchTerm req = true := by
    intro req
    unfold searchPass
    rw [jsTrim_eq_nil_of_ws h]
    rfl
  refine ⟨hpass, ?_⟩
  unfold filteredRequests
  exact List.filter_eq_self.mpr (fun a _ => hpass a)

/-- C10 witness: a single-space search term passes the sample entity and
leaves the view of a singleton list equal to the three-filter projection. -/
theorem whitespace_search_spec_witness :
    searchPass ([ ' ' ]) reqPending2 = true
      ∧ filteredRequests ⟨StatusFilter.ALL, TypeFilter.ALL, [], [ ' ' ]⟩ [reqPending2]
          = (((sortedRequests [reqPending2]).filter (statusPass StatusFilter.ALL)).filter
              (typePass TypeFilter.ALL)).filter (datePass []) := by
  have h := whitespace_search_spec
    ⟨StatusFilter.ALL, TypeFilter.ALL, [], [ ' ' ]⟩ [reqPending2] (by decide)
  exact ⟨h.1 reqPending2, h.2⟩

/-- C6: with a pending deletion confirmation, a failed remote delete leaves
the request list exactly unchanged (in particular the target stays present)
and enqueues exactly one error notification, while a successful remote
delete removes exactly the entries carrying the target id and enqueues one
info notification. -/
theorem confirm_delete_spec :
    ∀ (st : AppState) (target : List Char) (now : Nat),
      st.confirmingDelete = some target →
        (handleConfirmDelete (Except.error ()) now st).requests = st.requests
          ∧ (handleConfirmDelete (Except.error ()) now st).notifications
              = st.notifications
                  ++ [⟨notifId now, ("Failed to delete request.").data, NotifType.error⟩]
          ∧ (handleConfirmDelete (Except.ok ()) now st).requests
              = st.requests.filter (fun req => req.id ≠ target)
          ∧ (∀ r : ServiceRequest,
              r ∈ (handleConfirmDelete (Except.ok ()) now st).requests
                ↔ r ∈ st.requests ∧ r.id ≠ target)
          ∧ (handleConfirmDelete (Except.ok ()) now st).notifications
              = st.notifications
                  ++ [⟨notifId now, ("Request has been deleted.").data, NotifType.info⟩] := by
  intro st target now h
  simp only [handleConfirmDelete, h]
  refine ⟨rfl, rfl, rfl, ?_, rfl⟩
  intro r
  simp [addNotification, List.mem_filter]

/-- C6 witness: on a store holding only the sample entity with its deletion
pending, a failed delete keeps the entity and a successful delete empties
the list. -/
theorem confirm_delete_spec_witness :
    (handleConfirmDelete (Except.error ()) 0
        ⟨[reqPending2], [], none, some (("r2").data), none⟩).requests = [reqPending2]
      ∧ (handleConfirmDelete (Except.ok ()) 0
        ⟨[reqPending2], [], none, some (("r2").data), none⟩).requests = [] := by
  have h := confirm_delete_spec
    ⟨[reqPending2], [], none, some (("r2").data), none⟩ (("r2").data) 0 rfl
  refine ⟨h.1, ?_⟩
  rw [h.2.2.1]
  decide

/-- C2: for every target entity and parsed time-of-day input (hour below 24,
minute below 60), the delivery completion timestamp is the target entity
requestTime calendar date with only hour and minute overwritten and seconds
and milliseconds zeroed; in particular requestTime 2024-03-05T08:00:00 with
input 14:30 yields 2024-03-05T14:30:00, with no dependence on the wall
clock (the computation takes no clock input). -/
theorem delivery_completion_date_spec :
    (∀ (r : ServiceRequest) (s : List Char) (h m : Nat),
        parseHM s = some (h, m) → h < 24 → m < 60 →
          deliveryCompletionDate r s
            = JSDate.valid
                ⟨r.requestTime.year, r.requestTime.month, r.requestTime.day,
                  h, m, 0, 0⟩)
      ∧ deliveryCompletionDate reqPending2 (("14:30").data)
          = JSDate.valid ⟨2024, 3, 5, 14, 30, 0, 0⟩ := by
  constructor
  · intro r s h m hp _ _
    unfold deliveryCompletionDate
    rw [hp]
    rfl
  · decide

/-- C2 witness: the spec example input parses to 14:30 and produces the
stated completion timestamp. -/
theorem delivery_completion_date_spec_witness :
    parseHM (("14:30").data) = some (14, 30)
      ∧ deliveryCompletionDate reqPending2 (("14:30").data)
          = JSDate.valid ⟨2024, 3, 5, 14, 30, 0, 0⟩ :=
  ⟨by decide,
    delivery_completion_date_spec.1 reqPending2 (("14:30").data) 14 30
      (by decide) (by decide) (by decide)⟩

/-- C1 counterexample: with the serialization round trip modelled, an
unparseable time-of-day input makes the delivery path dispatch an Invalid
Date completionTime, which JSON-serializes to null and decodes back to
unset, so the completion operation stores a local entity whose status is
Completed while its completionTime is not set. -/
theorem completion_updates_counterexample :
    ((handleConfirmCompleteDelivery
        (fun u => Except.ok (applyWireUpdates reqPending2 (stringifyUpdates u)))
        (("Dan").data) (("2001").data) (("xx:yy").data) 0
        ⟨[reqPending2], [], none, none, some (("r2").data)⟩).requests.map
      (fun r => (r.status, (r.completionTime).isSome)))
      = [(RequestStatus.Completed, false)] := by
  decide

/-- C1 (amended): the non-delivery complete path always dispatches status
Completed together with a completionTime whose valid date survives the
JSON serialization, so under the round-trip echo semantics of the remote
update endpoint every entity it stores locally either was already there or
satisfies status = Completed if and only if completionTime is set; the
delivery path dispatches the same pair and satisfies the same property
whenever the submitted time-of-day parses to numeric hours and minutes,
its serialized payload then carrying the computed valid timestamp. -/
theorem completion_updates_spec :
    ∀ (st : AppState) (e : ServiceRequest) (now : DateTime) (nowMs : Nat)
      (nm nn s : List Char),
      ((completeUpdates now).status = some RequestStatus.Completed
          ∧ (stringifyUpdates (completeUpdates now)).completion_time = some (some now))
        ∧ (∀ h m : Nat, parseHM s = some (h, m) →
            ∀ r : ServiceRequest,
              (deliveryUpdates (deliveryCompletionDate r s) nm nn).status
                  = some RequestStatus.Completed
                ∧ (stringifyUpdates
                      (deliveryUpdates (deliveryCompletionDate r s) nm nn)).completion_time
                    = some (some (jsSetHours r.requestTime h m)))
        ∧ (∀ r : ServiceRequest,
            r ∈ (handleConfirmComplete
                  (Except.ok (applyWireUpdates e (stringifyUpdates (completeUpdates now))))
                  nowMs st).requests →
              r ∈ st.requests
                ∨ (r.status = RequestStatus.Completed
                    ↔ (r.completionTime).isSome = true))
        ∧ ((∃ h m : Nat, parseHM s = some (h, m)) →
            ∀ r : ServiceRequest,
              r ∈ (handleConfirmCompleteDelivery
                    (fun u => Except.ok (applyWireUpdates e (stringifyUpdates u)))
                    nm nn s nowMs st).requests →
                r ∈ st.requests
                  ∨ (r.status = RequestStatus.Completed
                      ↔ (r.completionTime).isSome = true)) := by
  intro st e now nowMs nm nn s
  refine ⟨⟨rfl, rfl⟩, ?_, ?_, ?_⟩
  · intro h m hp r
    refine ⟨rfl, ?_⟩
    unfold deliveryCompletionDate
    rw [hp]
    rfl
  · intro r hr
    rcases hcc : st.confirmingComplete with _ | target
    · simp only [handleConfirmComplete, hcc] at hr
      exact Or.inl hr
    · simp only [handleConfirmComplete, hcc, addNotification] at hr
      rw [List.mem_map] at hr
      obtain ⟨a, ha, hfa⟩ := hr
      by_cases hid : a.id = target
      · rw [if_pos hid] at hfa
        subst hfa
        exact Or.inr (by simp [applyWireUpdates, stringifyUpdates, completeUpdates])
      · rw [if_neg hid] at hfa
        subst hfa
        exact Or.inl ha
  · rintro ⟨h, m, hp⟩ r hr
    rcases hcd : st.completingDelivery with _ | target
    · simp only [handleConfirmCompleteDelivery, hcd] at hr
      exact Or.inl hr
    · rcases hfind : st.requests.find? (fun q => q.id = target) with _ | reqToUpdate
      · simp only [handleConfirmCompleteDelivery, hcd, hfind, addNotification] at hr
        exact Or.inl hr
      · simp only [handleConfirmCompleteDelivery, hcd, hfind, addNotification] at hr
        rw [List.mem_map] at hr
        obtain ⟨a, ha, hfa⟩ := hr
        by_cases hid : a.id = target
        · rw [if_pos hid] at hfa
          subst hfa
          refine Or.inr ?_
          simp [applyWireUpdates, stringifyUpdates, deliveryUpdates,
            deliveryCompletionDate, hp]
        · rw [if_neg hid] at hfa
          subst hfa
          exact Or.inl ha

/-- C1 witness: on a store holding the sample pending entity with its
delivery completion pending and the parseable input 14:30, the round-tripped
updated entity is in the resulting list and satisfies the completion
biconditional. -/
theorem completion_updates_spec_witness :
    applyWireUpdates reqPending2
        (stringifyUpdates
          (deliveryUpdates (deliveryCompletionDate reqPending2 (("14:30").data))
            (("Dan").data) (("2001").data)))
        ∈ (handleConfirmCompleteDelivery
            (fun u => Except.ok (applyWireUpdates reqPending2 (stringifyUpdates u)))
            (("Dan").data) (("2001").data) (("14:30").data) 0
            ⟨[reqPending2], [], none, none, some (("r2").data)⟩).requests
      ∧ (applyWireUpdates reqPending2
            (stringifyUpdates
              (deliveryUpdates (deliveryCompletionDate reqPending2 (("14:30").data))
                (("Dan").data) (("2001").data)))
            ∈ ([reqPending2] : List ServiceRequest)
          ∨ ((applyWireUpdates reqPending2
                (stringifyUpdates
                  (deliveryUpdates (deliveryCompletionDate reqPending2 (("14:30").data))
                    (("Dan").data) (("2001").data)))).status = RequestStatus.Completed
              ↔ ((applyWireUpdates reqPending2
                    (stringifyUpdates
                      (deliveryUpdates (deliveryCompletionDate reqPending2 (("14:30").data))
                        (("Dan").data) (("2001").data)))).completionTime).isSome = true)) :=
  ⟨by decide,
    (completion_updates_spec ⟨[reqPending2], [], none, none, some (("r2").data)⟩
        reqPending2 t3Date 0 (("Dan").data) (("2001").data) (("14:30").data)).2.2.2
      ⟨14, 30, by decide⟩
      (applyWireUpdates reqPending2
        (stringifyUpdates
          (deliveryUpdates (deliveryCompletionDate reqPending2 (("14:30").data))
            (("Dan").data) (("2001").data))))
      (by decide)⟩

/-- C8 counterexample: when the remote call fails, the confirm handlers do
not clear the pending confirmation id, so the flow is not Idle when the
handler finishes, contradicting the claim for the failure runs. -/
theorem confirm_flow_counterexample :
    (handleConfirmComplete (Except.error ()) 0
        ⟨[], [], some (("r2").data), none, none⟩).confirmingComplete ≠ none
      ∧ (handleConfirmDelete (Except.error ()) 0
        ⟨[], [], none, some (("r2").data), none⟩).confirmingDelete ≠ none := by
  decide

/-- C8 (amended): a confirm whose remote call succeeds clears the pending id
(both flows return to Idle), cancelling clears it directly, but a confirm
whose remote call fails leaves the pending confirmation id in place. -/
theorem confirm_flow_idle_spec :
    ∀ (st : AppState) (now : Nat) (r : ServiceRequest) (target : List Char),
      (st.confirmingComplete = some target →
          (handleConfirmComplete (Except.ok r) now st).confirmingComplete = none)
        ∧ (handleCancelComplete st).confirmingComplete = none
        ∧ (st.confirmingDelete = some target →
          (handleConfirmDelete (Except.ok ()) now st).confirmingDelete = none)
        ∧ (handleCancelDelete st).confirmingDelete = none
        ∧ (st.confirmingComplete = some target →
          (handleConfirmComplete (Except.error ()) now st).confirmingComplete
              = some target)
        ∧ (st.confirmingDelete = some target →
          (handleConfirmDelete (Except.error ()) now st).confirmingDelete
              = some target) := by
  intro st now r target
  refine ⟨?_, rfl, ?_, rfl, ?_, ?_⟩
  · intro h
    simp [handleConfirmComplete, h, addNotification]
  · intro h
    simp [handleConfirmDelete, h, addNotification]
  · intro h
    simp [handleConfirmComplete, h, addNotification]
  · intro h
    simp [handleConfirmDelete, h, addNotification]

/-- C8 witness: on a concrete state with both confirmations pending, success
clears each pending id and failure preserves it. -/
theorem confirm_flow_idle_spec_witness :
    (handleConfirmComplete (Except.ok reqPending2) 0
        ⟨[], [], some (("r2").data), some (("r2").data), none⟩).confirmingComplete = none
      ∧ (handleConfirmDelete (Except.error ()) 0
        ⟨[], [], some (("r2").data), some (("r2").data), none⟩).confirmingDelete
          = some (("r2").data) := by
  have h := confirm_flow_idle_spec
    ⟨[], [], some (("r2").data), some (("r2").data), none⟩ 0 reqPending2 (("r2").data)
  exact ⟨h.1 rfl, h.2.2.2.2.2 rfl⟩

/-- C9 counterexample: two notifications enqueued at the same millisecond
carry the same time-derived id even though the messages differ, so id
uniqueness per message does not hold across the queue. -/
theorem notification_id_counterexample :
    ((addNotification 5 ([ 'b' ]) NotifType.error
        (addNotification 5 ([ 'a' ]) NotifType.info ⟨[], [], none, none, none⟩)).notifications.map
      NotificationMessage.id) = [notifId 5, notifId 5]
      ∧ ((addNotification 5 ([ 'b' ]) NotifType.error
        (addNotification 5 ([ 'a' ]) NotifType.info ⟨[], [], none, none, none⟩)).notifications.map
      NotificationMessage.message) = [[ 'a' ], [ 'b' ]] :=
  ⟨rfl, rfl⟩

/-- C9 (amended): each enqueue appends one message whose id is derived from
the enqueue millisecond, and messages enqueued at distinct milliseconds have
distinct ids (the decimal rendering of the timestamp is injective); messages
enqueued within the same millisecond share an id. -/
theorem notification_id_spec :
    ∀ (st : AppState) (n1 n2 : Nat) (m1 m2 : List Char) (t1 t2 : NotifType),
      n1 ≠ n2 →
        (addNotification n2 m2 t2 (addNotification n1 m1 t1 st)).notifications
            = st.notifications ++ [⟨notifId n1, m1, t1⟩, ⟨notifId n2, m2, t2⟩]
          ∧ notifId n1 ≠ notifId n2 := by
  intro st n1 n2 m1 m2 t1 t2 h
  refine ⟨by simp [addNotification], ?_⟩
  intro he
  exact h (natDecimal_injective (List.append_cancel_left he))

/-- C9 witness: notifications enqueued at milliseconds 0 and 1 get distinct
ids. -/
theorem notification_id_spec_witness :
    (addNotification 1 ([ 'b' ]) NotifType.error
        (addNotification 0 ([ 'a' ]) NotifType.info ⟨[], [], none, none, none⟩)).notifications
        = [⟨notifId 0, [ 'a' ], NotifType.info⟩, ⟨notifId 1, [ 'b' ], NotifType.error⟩]
      ∧ notifId 0 ≠ notifId 1 :=
  notification_id_spec ⟨[], [], none, none, none⟩ 0 1 ([ 'a' ]) ([ 'b' ])
    NotifType.info NotifType.error (by decide)

/-- Wire record whose request_time does not parse, used to exercise the
decode paths. -/
def badWire : WireRecord :=
  ⟨("w1").data, ("Alice").data, ("1001").data, ("B07").data, ("CX100").data,
    ("garbage").data, none, RequestStatus.Pending, ServiceType.Connect,
    ("09:00").data, none, none⟩

/-- Wire record with parseable timestamps and a present completion_time. -/
def goodWire : WireRecord :=
  ⟨("w2").data, ("Bob").data, ("1002").data, ("B12").data, ("CX200").data,
    ("2024-03-05T08:00:00").data, some (("2024-03-05T14:30:00").data),
    RequestStatus.Completed, ServiceType.Connect, ("10:00").data,
    some (("Dan").data), some (("2001").data)⟩

/-- C7 counterexample: on a wire record whose request_time is unparseable,
the spec-modelled decode fails, but the implemented transformRequest does
not fail: it returns an entity whose requestTime is the Invalid Date
marker. -/
theorem transform_request_counterexample :
    decodeSpec badWire = none
      ∧ (transformRequest badWire).requestTime = JSDate.invalid := by
  constructor
  · decide
  · decide

/-- C7 (amended): decode renames every wire field to its camelCase
counterpart and passes the enums through unchanged; request_time is
converted with the Date constructor, yielding the parsed timestamp when
parseable and the Invalid Date marker (not a failure) otherwise; a
completion_time that is absent, null or the empty string stays absent,
while a present non-empty value is converted with the Date constructor. -/
theorem transform_request_spec :
    ∀ w : WireRecord,
      ((transformRequest w).id = w.id
        ∧ (transformRequest w).staffName = w.staff_name
        ∧ (transformRequest w).staffNumber = w.staff_number
        ∧ (transformRequest w).aircraftBay = w.aircraft_bay
        ∧ (transformRequest w).flightNumber = w.flight_number
        ∧ (transformRequest w).aircraftEta = w.aircraft_eta
        ∧ (transformRequest w).deliveryStaffName = w.delivery_staff_name
        ∧ (transformRequest w).deliveryStaffNumber = w.delivery_staff_number
        ∧ (transformRequest w).status = w.status
        ∧ (transformRequest w).serviceType = w.service_type)
      ∧ (transformRequest w).requestTime = jsNewDate w.request_time
      ∧ (parseISODateTime w.request_time = none →
          (transformRequest w).requestTime = JSDate.invalid)
      ∧ (∀ d, parseISODateTime w.request_time = some d →
          (transformRequest w).requestTime = JSDate.valid d)
      ∧ (w.completion_time = none → (transformRequest w).completionTime = none)
      ∧ (w.completion_time = some [] → (transformRequest w).completionTime = none)
      ∧ (∀ s, w.completion_time = some s → s ≠ [] →
          (transformRequest w).completionTime = some (jsNewDate s)) := by
  intro w
  refine ⟨⟨rfl, rfl, rfl, rfl, rfl, rfl, rfl, rfl, rfl, rfl⟩, rfl, ?_, ?_, ?_, ?_, ?_⟩
  · intro h
    simp [transformRequest, jsNewDate, h]
  · intro d h
    simp [transformRequest, jsNewDate, h]
  · intro h
    simp [transformRequest, h]
  · intro h
    simp [transformRequest, h]
  · intro s h hne
    simp [transformRequest, h, hne]

/-- C7 witness: the decode characterization evaluated on the two sample wire
records: a parseable request_time decodes to its timestamp and a present
completion_time is converted, while the unparseable one yields Invalid Date
and an absent completion_time stays absent. -/
theorem transform_request_spec_witness :
    (transformRequest goodWire).requestTime = JSDate.valid ⟨2024, 3, 5, 8, 0, 0, 0⟩
      ∧ (transformRequest goodWire).completionTime
          = some (jsNewDate (("2024-03-05T14:30:00").data))
      ∧ (transformRequest badWire).requestTime = JSDate.invalid
      ∧ (transformRequest badWire).completionTime = none := by
  obtain ⟨-, -, -, hvalid, -, -, hsome⟩ := transform_request_spec goodWire
  obtain ⟨-, -, hinv, -, hnone, -, -⟩ := transform_request_spec badWire
  exact ⟨hvalid ⟨2024, 3, 5, 8, 0, 0, 0⟩ (by decide),
    hsome (("2024-03-05T14:30:00").data) rfl (by decide),
    hinv (by decide), hnone rfl⟩

end ASR
